import Mathlib

/-!
Verification of the iKala dataset loader (`mirdata/ikala.py`).

The Python module is shallowly embedded below.  File-system state, the
process-wide metadata cache and the remote mapping file are collected in a
`World` record; functions that perform I/O in Python take and return a
`World` together with a log of I/O `Event`s.  Python `float` values that
occur in the annotation files are modelled as rationals where the code only
parses and rescales them, and as real numbers where `librosa.midi_to_hz`
applies the equal-tempered formula.  Python exceptions are modelled with
`Except`; `None` results are modelled with `Option`.

Python `dict`s are modelled as insertion-ordered association lists with
last-writer-wins update (`dictInsert`) and key lookup (`dictGet`).
-/

set_option autoImplicit false

namespace Ikala

/-- Equality of `Except` results is decidable when it is on both sides. -/
instance {ε α : Type} [DecidableEq ε] [DecidableEq α] :
    DecidableEq (Except ε α) := fun x y =>
  match x, y with
  | .ok a, .ok b =>
    match decEq a b with
    | isTrue h => isTrue (by rw [h])
    | isFalse h => isFalse fun hh => h (Except.ok.inj hh)
  | .ok _, .error _ => isFalse fun hh => Except.noConfusion hh
  | .error _, .ok _ => isFalse fun hh => Except.noConfusion hh
  | .error a, .error b =>
    match decEq a b with
    | isTrue h => isTrue (by rw [h])
    | isFalse h => isFalse fun hh => h (Except.error.inj hh)

/-- Python exceptions raised by the module: `ValueError` for an unknown
track id (the spec's `InvalidTrackId`), `KeyError` on a dict lookup miss
(for the singer map this is the spec's `UnknownSinger`), `IndexError` for
an out-of-range list subscript, and `ValueError` from `float()` on a
malformed number (the spec's `ParseError`). -/
inductive Err where
  | invalidTrackId
  | keyError
  | indexError
  | parseError
  | unknownSinger
  deriving DecidableEq, Repr

/-- One entry of a Python dict update: replace the value of an existing key
in place, otherwise append the new binding (Python dicts preserve insertion
order and `d[k] = v` is last-writer-wins). -/
def dictInsert {α : Type} (d : List (String × α)) (k : String) (v : α) :
    List (String × α) :=
  match d with
  | [] => [(k, v)]
  | (k', v') :: rest =>
    if k' = k then (k, v) :: rest else (k', v') :: dictInsert rest k v

/-- Python dict subscript `d[k]`, as an `Option` (a miss is a `KeyError` at
the call sites that model it). -/
def dictGet {α : Type} (d : List (String × α)) (k : String) : Option α :=
  match d with
  | [] => none
  | (k', v') :: rest => if k' = k then some v' else dictGet rest k

/-- Python `s.split(sep)` for a single-character separator, on the
character list of the string: every occurrence of the separator splits,
and empty components are kept (`''.split('_') == ['']`,
`'_'.split('_') == ['', '']`). -/
def pySplit (sep : Char) : List Char → List (List Char)
  | [] => [[]]
  | c :: cs =>
    if c = sep then
      [] :: pySplit sep cs
    else
      match pySplit sep cs with
      | [] => [[c]]
      | t :: ts => (c :: t) :: ts

/-- `pySplit` lifted back to `String`.  This also models a row of Python's
`csv.reader(fhandle, delimiter=sep)` on the iKala annotation and mapping
files, whose lines contain no quote characters, so the csv reader reduces
to splitting each line on the delimiter. -/
def pySplitStr (sep : Char) (s : String) : List String :=
  (pySplit sep s.data).map String.mk

/-- Accumulator pass of decimal-digit parsing. -/
def readDigitsGo : List Char → Nat → Option Nat
  | [], acc => some acc
  | c :: cs, acc =>
    if c.isDigit then readDigitsGo cs (10 * acc + (c.toNat - 48)) else none

/-- Magnitude part of a Python `float()` literal: digits with an optional
single `.` and fractional digits; at least one character must be present
on one side of the dot. -/
def pyFloatMag (cs : List Char) : Option ℚ :=
  let ip := cs.takeWhile fun c => c ≠ '.'
  match cs.dropWhile fun c => c ≠ '.' with
  | [] =>
    match ip with
    | [] => none
    | _ => (readDigitsGo ip 0).map fun n => (n : ℚ)
  | _ :: frac =>
    if ip.isEmpty ∧ frac.isEmpty then none
    else
      match readDigitsGo ip 0, readDigitsGo frac 0 with
      | some n, some f => some ((n : ℚ) + (f : ℚ) / (10 : ℚ) ^ frac.length)
      | _, _ => none

/-- Python `float(s)` on the plain decimal literals that occur in iKala
annotation files: optional sign, integer digits, optional fractional part.
(Exponent, `inf`/`nan` and surrounding-whitespace forms do not occur in
these files and are outside the model; a non-literal raises `ValueError`,
modelled as `none` here.) -/
def pyFloat (s : String) : Option ℚ :=
  match s.data with
  | '-' :: rest => (pyFloatMag rest).map Neg.neg
  | '+' :: rest => pyFloatMag rest
  | cs => pyFloatMag cs

/-- Python `' '.join l`. -/
def joinSpaces (l : List String) : String :=
  String.intercalate " " l

/-! ## Data model -/

/-- One entry of the static `IKALA_INDEX` manifest: for each of the audio,
pitch and lyrics files, the relative path and the recorded checksum
(`track_data['audio']`, `['pitch']`, `['lyrics']` are `[path, checksum]`
pairs; the code reads component `[0]`, the validator the checksum). -/
structure TrackData where
  audio : String × String
  pitch : String × String
  lyrics : String × String
  deriving DecidableEq, Repr

/-- The static index `IKALA_INDEX`: a pre-built manifest mapping track id
to its `TrackData`.  The index file itself is an external build artifact,
so the index is a parameter of the model. -/
abbrev Index := List (String × TrackData)

/-- The parsed singer-id mapping (`singer_map` in `_load_metadata`).  Its
values are `some singer` for rows of the mapping file, while the extra
`'data_home'` key stores the root directory, itself an `Option String`
because `data_home=None` is allowed; the dict is thus heterogeneous in
Python and its values are modelled as `Option String`. -/
abbrev Metadata := List (String × Option String)

/-- `utils.F0Data(times, frequencies, confidence)`; modelled from the spec
since `mirdata/utils.py` is not part of the sources: three parallel
sequences, times and the parsed MIDI-derived frequencies and 0/1
confidences (`F0Series` in the spec). -/
structure F0Data where
  times : List ℚ
  frequency_hz : List ℝ
  confidence : List ℤ

/-- `utils.LyricsData(start_times, end_times, lyrics, pronounciations)`;
modelled from the spec since `mirdata/utils.py` is not part of the
sources: four parallel sequences (`LyricsSeries` in the spec), with the
source's spelling of `pronounciations`. -/
structure LyricsData where
  start_times : List ℚ
  end_times : List ℚ
  lyrics : List String
  pronounciations : List (Option String)
  deriving DecidableEq, Repr

/-- The `IKalaTrack` namedtuple (the spec's `TrackRecord`).  The field
`section` is a Lean keyword, so it is spelled `sect` here. -/
structure IKalaTrack where
  track_id : String
  f0 : Option F0Data
  lyrics : Option LyricsData
  audio_path : String
  singer_id : Option String
  song_id : String
  sect : String

/-- The two sets produced by one validation run (missing files, files with
a checksum mismatch), as lists of relative paths. -/
structure ValidationReport where
  missing_files : List String
  invalid_checksums : List String
  deriving DecidableEq, Repr

/-- An I/O action performed by the module: opening a file for reading,
downloading a URL to a local path, or running a validation pass. -/
inductive Event where
  | read : String → Event
  | download : String → String → Event
  | validated : ValidationReport → Event
  deriving DecidableEq, Repr

/-- The ambient state: the local file system (path to list of lines, the
trailing newline that Python's `readlines` keeps being immaterial to every
parse in the module and hence dropped), the process-wide global
`IKALA_METADATA` cache slot, and the content the remote singer-id mapping
URL would serve. -/
structure World where
  fs : List (String × List String)
  metadataCache : Option Metadata
  remote : List String
  deriving DecidableEq

/-- `os.path.exists` plus `open(...).readlines()`, as a pure lookup. -/
def fsRead (w : World) (path : String) : Option (List String) :=
  dictGet w.fs path

/-- `utils.download_large_file(url, path)`; modelled from the spec since
`mirdata/utils.py` is not part of the sources: it stores the remote
file's content at the local path. -/
def downloadTo (w : World) (path : String) : World :=
  { w with fs := dictInsert w.fs path w.remote }

/-- `IKALA_TIME_STEP = 0.032` seconds. -/
def IKALA_TIME_STEP : ℚ := 32 / 1000

/-- `IKALA_DIR = 'iKala'`. -/
def IKALA_DIR : String := "iKala"

/-- `ID_MAPPING_URL`. -/
def ID_MAPPING_URL : String := "http://mac.citi.sinica.edu.tw/ikala/id_mapping.txt"

/-- `utils.get_local_path(data_home, rel)`; modelled from the spec since
`mirdata/utils.py` is not part of the sources: it joins the root data
directory (or the library's default save path when `data_home` is `None`)
with the relative path. -/
def getLocalPath (dataHome : Option String) (rel : String) : String :=
  match dataHome with
  | some d => d ++ "/" ++ rel
  | none => "mir_datasets" ++ "/" ++ rel

/-! ## Pitch-label parser (`_load_f0`) -/

/-- `librosa.midi_to_hz(m) = 440 * 2 ** ((m - 69) / 12)`, the
equal-tempered conversion, in exact real arithmetic. -/
noncomputable def midi_to_hz (m : ℚ) : ℝ :=
  440 * (2 : ℝ) ^ (((m : ℝ) - 69) / 12)

/-- One element of `f0_hz = librosa.midi_to_hz(f0_midi) * (f0_midi > 0)`:
the Hz formula gated by the boolean-as-number factor `(midi > 0)`. -/
noncomputable def gatedHz (m : ℚ) : ℝ :=
  midi_to_hz m * (if 0 < m then 1 else 0)

open Classical in
/-- One element of `confidence = (f0_hz > 0).astype(int)`. -/
noncomputable def confOf (h : ℝ) : ℤ :=
  if 0 < h then 1 else 0

/-- `[float(line) for line in lines]`: all lines parsed as floats, or the
`ValueError` (`none`) if any line is malformed. -/
def parseFloats : List String → Option (List ℚ)
  | [] => some []
  | s :: rest =>
    match pyFloat s, parseFloats rest with
    | some q, some qs => some (q :: qs)
    | _, _ => none

/-- The `F0Data` built by `_load_f0` from the parsed MIDI values:
`times = np.arange(len(f0_midi)) * IKALA_TIME_STEP`,
`f0_hz = librosa.midi_to_hz(f0_midi) * (f0_midi > 0)`, and
`confidence = (f0_hz > 0).astype(int)`. -/
noncomputable def mkF0Data (ms : List ℚ) : F0Data :=
  let hz := ms.map gatedHz
  ⟨(List.range ms.length).map fun i : ℕ => (i : ℚ) * IKALA_TIME_STEP,
   hz, hz.map confOf⟩

/-- `_load_f0(f0_path)`: `None` when the file does not exist, otherwise
parse every line as a float and build the `F0Data`; a malformed line
raises `ValueError` (the spec's `ParseError`).  The second component is
the log of I/O performed. -/
noncomputable def _load_f0 (f0_path : String) (w : World) :
    Except Err (Option F0Data) × List Event :=
  match fsRead w f0_path with
  | none => (.ok none, [])
  | some lines =>
    match parseFloats lines with
    | none => (.error .parseError, [.read f0_path])
    | some ms => (.ok (some (mkF0Data ms)), [.read f0_path])

/-! ## Lyrics parser (`_load_lyrics`) -/

/-- The row loop of `_load_lyrics`, over csv rows already split on the
space delimiter.  Per row: `float(line[0]) / 1000`, `float(line[1]) /
1000`, `line[2]`, and `' '.join(line[3:])` as the pronunciation, `None`
when that join is empty.  (The source's `len(line) > 2` test is always
true once `line[2]` has been read, and its `else` branch also appends
`None`, so both source branches reduce to the same expression.)  A
malformed time raises `ValueError`, a row with fewer than three fields
raises `IndexError`; subscripts are evaluated in source order, so the
`float` failure wins on a short row whose first field is non-numeric. -/
def loadLyricsRows : List (List String) → Except Err LyricsData
  | [] => .ok ⟨[], [], [], []⟩
  | line :: rest =>
    match line with
    | [] => .error .indexError
    | t0 :: lrest =>
      match pyFloat t0 with
      | none => .error .parseError
      | some q0 =>
        match lrest with
        | [] => .error .indexError
        | t1 :: lrest2 =>
          match pyFloat t1 with
          | none => .error .parseError
          | some q1 =>
            match lrest2 with
            | [] => .error .indexError
            | tok :: extra =>
              match loadLyricsRows rest with
              | .error e => .error e
              | .ok d =>
                let pron := joinSpaces extra
                .ok ⟨q0 / 1000 :: d.start_times, q1 / 1000 :: d.end_times,
                     tok :: d.lyrics,
                     (if pron = "" then none else some pron) ::
                       d.pronounciations⟩

/-- `_load_lyrics(lyrics_path)`: `None` when the file does not exist,
otherwise run `csv.reader(fhandle, delimiter=' ')` (space-splitting each
line, the files containing no quote characters) and the row loop. -/
def _load_lyrics (lyrics_path : String) (w : World) :
    Except Err (Option LyricsData) × List Event :=
  match fsRead w lyrics_path with
  | none => (.ok none, [])
  | some lines =>
    match loadLyricsRows (lines.map (pySplitStr ' ')) with
    | .error e => (.error e, [.read lyrics_path])
    | .ok d => (.ok (some d), [.read lyrics_path])

/-! ## Metadata loader (`_load_metadata`, `_reload_metadata`) -/

/-- The row loop of `_load_metadata` over tab-split csv rows: skip rows
whose first field is the literal `singer` (the header), otherwise
`singer_map[line[1]] = line[0]` (last row wins); a row without a second
field raises `IndexError` (and an empty csv row raises it at `line[0]`). -/
def parseIdMapRows : List (List String) → Metadata → Except Err Metadata
  | [], acc => .ok acc
  | line :: rest, acc =>
    match line with
    | [] => .error .indexError
    | f0 :: lrest =>
      if f0 = "singer" then parseIdMapRows rest acc
      else
        match lrest with
        | [] => .error .indexError
        | f1 :: _ => parseIdMapRows rest (dictInsert acc f1 (some f0))

/-- The open-and-parse tail of `_load_metadata`, once the mapping file is
guaranteed present at `p` in world `w₁` (`ev₁` logs a download when one
happened): parse the tab-separated rows, then store the root directory in
the same dict under the ordinary key `'data_home'`
(`singer_map['data_home'] = data_home`). -/
def _load_metadata_read (p : String) (dataHome : Option String) (w₁ : World)
    (ev₁ : List Event) : Except Err Metadata × World × List Event :=
  match fsRead w₁ p with
  | none => (.error .indexError, w₁, ev₁)
  | some lines =>
    match parseIdMapRows (lines.map (pySplitStr '\t')) [] with
    | .error e => (.error e, w₁, ev₁ ++ [.read p])
    | .ok m =>
      (.ok (dictInsert m "data_home" dataHome), w₁, ev₁ ++ [.read p])

/-- `os.path.join(IKALA_DIR, 'id_mapping.txt')` resolved through
`utils.get_local_path`: the expected local path of the mapping file. -/
def idMapPath (dataHome : Option String) : String :=
  getLocalPath dataHome (IKALA_DIR ++ "/" ++ "id_mapping.txt")

/-- `_load_metadata(data_home)`: download the mapping file to its expected
local path when absent, then open and parse it. -/
def _load_metadata (dataHome : Option String) (w : World) :
    Except Err Metadata × World × List Event :=
  match fsRead w (idMapPath dataHome) with
  | none =>
    _load_metadata_read (idMapPath dataHome) dataHome
      (downloadTo w (idMapPath dataHome))
      [Event.download ID_MAPPING_URL (idMapPath dataHome)]
  | some _ => _load_metadata_read (idMapPath dataHome) dataHome w []

/-- `_reload_metadata(data_home)`: rebuild the singer map and overwrite the
process-wide `IKALA_METADATA` cache slot with it (the slot is untouched
when `_load_metadata` raises). -/
def _reload_metadata (dataHome : Option String) (w : World) :
    Except Err Metadata × World × List Event :=
  match _load_metadata dataHome w with
  | (.ok md, w', ev) => (.ok md, { w' with metadataCache := some md }, ev)
  | (.error e, w', ev) => (.error e, w', ev)

/-- The metadata-freshness step of `load_track`: reload (through
`_reload_metadata`) exactly when `IKALA_METADATA is None or
IKALA_METADATA['data_home'] != data_home`, otherwise return the cached
dict untouched.  This is the spec's `ensure_metadata`. -/
def ensure_metadata (dataHome : Option String) (w : World) :
    Except Err Metadata × World × List Event :=
  match w.metadataCache with
  | none => _reload_metadata dataHome w
  | some md =>
    match dictGet md "data_home" with
    | none => (.error .keyError, w, [])
    | some mdh =>
      if mdh = dataHome then (.ok md, w, []) else _reload_metadata dataHome w

/-! ## Track loader (`load_track`, `load`, `validate`, `track_ids`) -/

/-- `load_track(track_id, data_home)`: reject unknown track ids first
(`ValueError`, the spec's `InvalidTrackId`), ensure the metadata cache is
fresh, parse the pitch and lyrics annotations, split the track id on `_`
(`split('_')[0]` and `[1]`; a track id without `_` raises `IndexError`),
look the singer up (`IKALA_METADATA[song_id]`, a miss raising `KeyError`,
the spec's `UnknownSinger`) and assemble the `IKalaTrack`. -/
noncomputable def load_track (index : Index) (track_id : String)
    (dataHome : Option String) (w : World) :
    Except Err IKalaTrack × World × List Event :=
  match dictGet index track_id with
  | none => (.error .invalidTrackId, w, [])
  | some track_data =>
    match ensure_metadata dataHome w with
    | (.error e, w', ev) => (.error e, w', ev)
    | (.ok md, w', ev) =>
      match _load_f0 (getLocalPath dataHome track_data.pitch.1) w' with
      | (.error e, evf) => (.error e, w', ev ++ evf)
      | (.ok f0_data, evf) =>
        match _load_lyrics (getLocalPath dataHome track_data.lyrics.1) w' with
        | (.error e, evl) => (.error e, w', ev ++ evf ++ evl)
        | (.ok lyrics_data, evl) =>
          match pySplitStr '_' track_id with
          | song_id :: sec :: _ =>
            match dictGet md song_id with
            | none => (.error .unknownSinger, w', ev ++ evf ++ evl)
            | some singer =>
              (.ok ⟨track_id, f0_data, lyrics_data,
                    getLocalPath dataHome track_data.audio.1,
                    singer, song_id, sec⟩,
               w', ev ++ evf ++ evl)
          | _ => (.error .indexError, w', ev ++ evf ++ evl)

/-- `utils.validator(dataset_index, data_home, dataset_path)`; modelled
from the spec since `mirdata/utils.py` is not part of the sources: for
every file referenced in the index and for the singer-id mapping file,
report it as missing when it does not exist under the dataset path, and as
checksum-invalid when it exists but its content hash disagrees with the
recorded checksum.  The content hash is an external collaborator and is a
parameter. -/
def validator (index : Index) (hash : List String → String)
    (dataHome : Option String) (datasetPath : Option String) (w : World) :
    ValidationReport :=
  let files :=
    index.foldr (fun kv acc => kv.2.audio :: kv.2.pitch :: kv.2.lyrics :: acc)
      [] ++ [(IKALA_DIR ++ "/" ++ "id_mapping.txt", "")]
  let resolve := fun (p : String) => getLocalPath datasetPath p
  let _ := dataHome
  ⟨files.filterMap fun pc =>
      match fsRead w (resolve pc.1) with
      | none => some pc.1
      | some _ => none,
   files.filterMap fun pc =>
      match fsRead w (resolve pc.1) with
      | none => none
      | some lines => if hash lines = pc.2 then none else some pc.1⟩

/-- `validate(dataset_path, data_home=None)`: delegate to
`utils.validator(IKALA_INDEX, data_home, dataset_path)` and return the
two sets without raising. -/
def validate (index : Index) (hash : List String → String)
    (datasetPath : Option String) (dataHome : Option String) (w : World) :
    ValidationReport :=
  validator index hash dataHome datasetPath w

/-- `track_ids()`: the index keys in the index's own order. -/
def track_ids (index : Index) : List String :=
  index.map Prod.fst

/-- The loop of `load`: `ikala_data[key] = load_track(key, data_home)` for
every index key, threading the world (the shared metadata cache) and
stopping at the first raised exception. -/
noncomputable def loadAllGo (index : Index) (dataHome : Option String) :
    List String → World → List (String × IKalaTrack) →
    Except Err (List (String × IKalaTrack)) × World × List Event
  | [], w, acc => (.ok acc, w, [])
  | k :: ks, w, acc =>
    match load_track index k dataHome w with
    | (.ok rec, w', ev) =>
      match loadAllGo index dataHome ks w' (dictInsert acc k rec) with
      | (r, w'', ev') => (r, w'', ev ++ ev')
    | (.error e, w', ev) => (.error e, w', ev)

/-- `load(data_home)` (the spec's `load_all`): run `validate(data_home)`
first — note the source passes `data_home` positionally as `validate`'s
`dataset_path`, leaving `data_home=None` — discard the report, then load
every indexed track into a dict. -/
noncomputable def load (index : Index) (hash : List String → String)
    (dataHome : Option String) (w : World) :
    Except Err (List (String × IKalaTrack)) × World × List Event :=
  let report := validate index hash dataHome none w
  match loadAllGo index dataHome (track_ids index) w [] with
  | (r, w', ev) => (r, w', .validated report :: ev)

/-! ## Dictionary lemmas -/

theorem dictGet_dictInsert_self {α : Type} (d : List (String × α)) (k : String)
    (v : α) : dictGet (dictInsert d k v) k = some v := by
  induction d with
  | nil => simp [dictInsert, dictGet]
  | cons hd tl ih =>
    obtain ⟨k', v'⟩ := hd
    by_cases h : k' = k
    · simp [dictInsert, dictGet, h]
    · simp [dictInsert, dictGet, h, ih]

theorem dictInsert_keys_of_not_mem {α : Type} (d : List (String × α))
    (k : String) (v : α) (h : k ∉ d.map Prod.fst) :
    (dictInsert d k v).map Prod.fst = d.map Prod.fst ++ [k] := by
  induction d with
  | nil => simp [dictInsert]
  | cons hd tl ih =>
    obtain ⟨k', v'⟩ := hd
    simp only [List.map_cons, List.mem_cons] at h
    push_neg at h
    simp [dictInsert, Ne.symm h.1, ih h.2]

theorem dictGet_some_of_mem_keys {α : Type} (d : List (String × α))
    (k : String) (h : k ∈ d.map Prod.fst) : ∃ v, dictGet d k = some v := by
  induction d with
  | nil => simp at h
  | cons hd tl ih =>
    obtain ⟨k', v'⟩ := hd
    by_cases hk : k' = k
    · exact ⟨v', by simp [dictGet, hk]⟩
    · simp only [List.map_cons, List.mem_cons] at h
      rcases h with h | h
      · exact absurd h.symm hk
      · obtain ⟨v, hv⟩ := ih h
        exact ⟨v, by simp [dictGet, hk, hv]⟩

/-! ## Split lemmas -/

theorem pySplit_ne_nil (sep : Char) (cs : List Char) :
    pySplit sep cs ≠ [] := by
  cases cs with
  | nil => simp [pySplit]
  | cons c cs =>
    by_cases h : c = sep
    · simp [pySplit, h]
    · simp only [pySplit, if_neg h]
      cases pySplit sep cs <;> simp

theorem pySplit_of_not_mem (sep : Char) (b : List Char) (hb : sep ∉ b) :
    pySplit sep b = [b] := by
  induction b with
  | nil => simp [pySplit]
  | cons c cs ih =>
    simp only [List.mem_cons] at hb
    push_neg at hb
    rw [pySplit, if_neg (Ne.symm hb.1), ih hb.2]

theorem pySplit_append (sep : Char) (a b : List Char) (ha : sep ∉ a) :
    pySplit sep (a ++ sep :: b) = a :: pySplit sep b := by
  induction a with
  | nil => simp [pySplit]
  | cons c cs ih =>
    simp only [List.mem_cons] at ha
    push_neg at ha
    rw [List.cons_append, pySplit, if_neg (Ne.symm ha.1), ih ha.2]

theorem pySplit_not_mem (sep : Char) (cs : List Char) :
    ∀ l ∈ pySplit sep cs, sep ∉ l := by
  induction cs with
  | nil =>
    intro l hl
    simp [pySplit] at hl
    simp [hl]
  | cons c cs ih =>
    intro l hl
    by_cases h : c = sep
    · simp only [pySplit, if_pos h, List.mem_cons] at hl
      rcases hl with hl | hl
      · simp [hl]
      · exact ih l hl
    · simp only [pySplit, if_neg h] at hl
      rcases hsplit : pySplit sep cs with _ | ⟨t, ts⟩
      · exact absurd hsplit (pySplit_ne_nil sep cs)
      · rw [hsplit, List.mem_cons] at hl
        rcases hl with hl | hl
        · subst hl
          intro hmem
          rcases List.mem_cons.mp hmem with hc | hc
          · exact h hc.symm
          · exact ih t (by rw [hsplit]; exact List.mem_cons_self t ts) hc
        · exact ih l (by rw [hsplit]; exact List.mem_cons_of_mem t hl)

theorem pySplitStr_two (a b : List Char) (ha : '_' ∉ a) (hb : '_' ∉ b) :
    pySplitStr '_' (String.mk (a ++ '_' :: b)) = [String.mk a, String.mk b] := by
  simp [pySplitStr, pySplit_append '_' a b ha, pySplit_of_not_mem '_' b hb]

theorem String.mk_append_mk (a b : List Char) :
    String.mk a ++ String.mk b = String.mk (a ++ b) := rfl

/-! ## Pitch lemmas -/

theorem midi_to_hz_pos (m : ℚ) : 0 < midi_to_hz m := by
  unfold midi_to_hz
  positivity

theorem gatedHz_nonneg (m : ℚ) : 0 ≤ gatedHz m := by
  unfold gatedHz
  split
  · simpa using le_of_lt (midi_to_hz_pos m)
  · simp

theorem confOf_eq_one_iff (h : ℝ) : confOf h = 1 ↔ 0 < h := by
  unfold confOf
  split <;> simp_all

theorem confOf_zero_or_one (h : ℝ) : confOf h = 0 ∨ confOf h = 1 := by
  unfold confOf
  split <;> simp

theorem mkF0Data_lengths (ms : List ℚ) :
    (mkF0Data ms).times.length = ms.length ∧
    (mkF0Data ms).frequency_hz.length = ms.length ∧
    (mkF0Data ms).confidence.length = ms.length := by
  unfold mkF0Data
  exact ⟨by rw [List.length_map, List.length_range], by rw [List.length_map],
    by rw [List.length_map, List.length_map]⟩

/-! ## Lyrics-parser lemmas -/

/-- Unfolding equation for one accepted row of the lyrics loop. -/
theorem loadLyricsRows_cons_ok (t0 t1 tok : String) (extra : List String)
    (rest : List (List String)) (q0 q1 : ℚ) (d : LyricsData)
    (h0 : pyFloat t0 = some q0) (h1 : pyFloat t1 = some q1)
    (hrest : loadLyricsRows rest = .ok d) :
    loadLyricsRows ((t0 :: t1 :: tok :: extra) :: rest) =
      .ok ⟨q0 / 1000 :: d.start_times, q1 / 1000 :: d.end_times,
           tok :: d.lyrics,
           (if joinSpaces extra = "" then none else some (joinSpaces extra)) ::
             d.pronounciations⟩ := by
  simp [loadLyricsRows, h0, h1, hrest]

/-- Row-by-row description of every accepted lyrics file: the four output
sequences are as long as the row list, and the entries at any index `i`
come from the fields of row `i` by the row rule. -/
theorem loadLyricsRows_spec (rows : List (List String)) (d : LyricsData)
    (h : loadLyricsRows rows = .ok d) :
    (d.start_times.length = rows.length ∧ d.end_times.length = rows.length ∧
      d.lyrics.length = rows.length ∧
      d.pronounciations.length = rows.length) ∧
    ∀ i s e, d.start_times.get? i = some s → d.end_times.get? i = some e →
      ∃ t0 t1 tok extra q0 q1,
        rows.get? i = some (t0 :: t1 :: tok :: extra) ∧
        pyFloat t0 = some q0 ∧ pyFloat t1 = some q1 ∧
        s = q0 / 1000 ∧ e = q1 / 1000 ∧
        d.lyrics.get? i = some tok ∧
        d.pronounciations.get? i =
          some (if joinSpaces extra = "" then none
                else some (joinSpaces extra)) := by
  induction rows generalizing d with
  | nil =>
    simp only [loadLyricsRows] at h
    obtain rfl : (⟨[], [], [], []⟩ : LyricsData) = d := by
      simpa using h
    simp
  | cons row rest ih =>
    rcases row with _ | ⟨t0, lrest⟩
    · simp [loadLyricsRows] at h
    rcases h0 : pyFloat t0 with _ | q0
    · simp [loadLyricsRows, h0] at h
    rcases lrest with _ | ⟨t1, lrest2⟩
    · simp [loadLyricsRows, h0] at h
    rcases h1 : pyFloat t1 with _ | q1
    · simp [loadLyricsRows, h0, h1] at h
    rcases lrest2 with _ | ⟨tok, extra⟩
    · simp [loadLyricsRows, h0, h1] at h
    rcases hrest : loadLyricsRows rest with e' | d'
    · simp [loadLyricsRows, h0, h1, hrest] at h
    rw [loadLyricsRows_cons_ok t0 t1 tok extra rest q0 q1 d' h0 h1 hrest] at h
    obtain rfl : _ = d := Except.ok.inj h
    obtain ⟨⟨hl1, hl2, hl3, hl4⟩, hidx⟩ := ih d' hrest
    refine ⟨by simp [hl1, hl2, hl3, hl4], ?_⟩
    rintro (_ | i) s e hs he
    · refine ⟨t0, t1, tok, extra, q0, q1, by simp, h0, h1, ?_, ?_, by simp, by simp⟩
      · simpa using hs.symm
      · simpa using he.symm
    · simpa using hidx i s e (by simpa using hs) (by simpa using he)

/-! ## Metadata lemmas -/

/-- Whatever the mapping file contained, `_load_metadata` ends by storing
the requested root directory under the key `'data_home'`: any parsed row
keyed `'data_home'` is silently overwritten. -/
theorem _load_metadata_data_home (dataHome : Option String) (w : World)
    (md : Metadata) (w' : World) (ev : List Event)
    (h : _load_metadata dataHome w = (.ok md, w', ev)) :
    dictGet md "data_home" = some dataHome := by
  unfold _load_metadata at h
  split at h <;>
    · unfold _load_metadata_read at h
      split at h
      · simp at h
      · split at h
        · simp at h
        · simp only [Prod.mk.injEq, Except.ok.injEq] at h
          obtain ⟨hmd, -, -⟩ := h
          rw [← hmd]
          exact dictGet_dictInsert_self ..

/-- A successful `_reload_metadata` yields a dict whose `'data_home'` entry
is the requested root and leaves exactly that dict in the cache slot. -/
theorem _reload_metadata_ok (dataHome : Option String) (w : World)
    (md : Metadata) (w' : World) (ev : List Event)
    (h : _reload_metadata dataHome w = (.ok md, w', ev)) :
    dictGet md "data_home" = some dataHome ∧
      w'.metadataCache = some md := by
  unfold _reload_metadata at h
  rcases hlm : _load_metadata dataHome w with ⟨r, w₁, ev₁⟩
  rw [hlm] at h
  cases r with
  | ok md₁ =>
    simp only [Prod.mk.injEq, Except.ok.injEq] at h
    obtain ⟨hmd, hw, -⟩ := h
    subst hmd
    exact ⟨_load_metadata_data_home dataHome w _ w₁ ev₁ hlm, by rw [← hw]⟩
  | error e => simp at h

/-- Every successful `ensure_metadata` yields a dict whose `'data_home'`
entry is the requested root, and leaves exactly that dict in the cache
slot of the returned world. -/
theorem ensure_metadata_ok (dataHome : Option String) (w : World)
    (md : Metadata) (w' : World) (ev : List Event)
    (h : ensure_metadata dataHome w = (.ok md, w', ev)) :
    dictGet md "data_home" = some dataHome ∧
      w'.metadataCache = some md := by
  unfold ensure_metadata at h
  split at h
  case h_1 =>
    exact _reload_metadata_ok dataHome w md w' ev h
  case h_2 md₀ hc =>
    split at h
    · simp at h
    case h_2 mdh hdh =>
      split at h
      case isTrue heq =>
        simp only [Prod.mk.injEq, Except.ok.injEq] at h
        obtain ⟨hmd, hw, -⟩ := h
        subst hmd
        subst heq
        exact ⟨hdh, by rw [← hw, hc]⟩
      case isFalse =>
        exact _reload_metadata_ok dataHome w md w' ev h

/-- Dissection of a successful `load_track`: which lookups and parses it
performed and how the returned record's fields were assembled. -/
theorem load_track_ok_spec (index : Index) (track_id : String)
    (dataHome : Option String) (w : World) (rec : IKalaTrack) (w' : World)
    (ev : List Event)
    (h : load_track index track_id dataHome w = (.ok rec, w', ev)) :
    ∃ td md evm s sec rest,
      dictGet index track_id = some td ∧
      ensure_metadata dataHome w = (.ok md, w', evm) ∧
      pySplitStr '_' track_id = s :: sec :: rest ∧
      dictGet md s = some rec.singer_id ∧
      rec.track_id = track_id ∧ rec.song_id = s ∧ rec.sect = sec ∧
      (_load_f0 (getLocalPath dataHome td.pitch.1) w').1 = .ok rec.f0 ∧
      (_load_lyrics (getLocalPath dataHome td.lyrics.1) w').1 =
        .ok rec.lyrics ∧
      rec.audio_path = getLocalPath dataHome td.audio.1 := by
  unfold load_track at h
  split at h
  · simp at h
  case h_2 td htd =>
    split at h
    · simp at h
    case h_2 md w₁ evm hem =>
      split at h
      · simp at h
      case h_2 f0d evf hf0 =>
        split at h
        · simp at h
        case h_2 lyd evl hly =>
          split at h
          case h_1 s sec rest hsplit =>
            split at h
            · simp at h
            case h_2 singer hsinger =>
              simp only [Prod.mk.injEq, Except.ok.injEq] at h
              obtain ⟨hrec, hw, -⟩ := h
              subst hrec
              subst hw
              exact ⟨td, md, evm, s, sec, rest, htd, hem, hsplit, hsinger,
                rfl, rfl, rfl, by rw [hf0], by rw [hly], rfl⟩
          · simp at h

/-- A cache hit: when the slot holds a dict whose `'data_home'` entry is
the requested root, `ensure_metadata` is a no-op. -/
theorem ensure_metadata_hit (dataHome : Option String) (w : World)
    (md : Metadata) (hc : w.metadataCache = some md)
    (hdh : dictGet md "data_home" = some dataHome) :
    ensure_metadata dataHome w = (.ok md, w, []) := by
  unfold ensure_metadata
  rw [hc]
  simp [hdh]

/-! ## Bulk-load lemmas -/

/-- A successful run of the `load` loop visits every listed key: the keys
of the produced dict are the accumulator's keys followed by the visited
keys, in order. -/
theorem loadAllGo_ok_keys (index : Index) (dataHome : Option String) :
    ∀ (ks : List String) (w : World) (acc : List (String × IKalaTrack))
      (m : List (String × IKalaTrack)) (w' : World) (ev : List Event),
      loadAllGo index dataHome ks w acc = (.ok m, w', ev) →
      (acc.map Prod.fst ++ ks).Nodup →
      m.map Prod.fst = acc.map Prod.fst ++ ks := by
  intro ks
  induction ks with
  | nil =>
    intro w acc m w' ev h _
    unfold loadAllGo at h
    simp only [Prod.mk.injEq, Except.ok.injEq] at h
    obtain ⟨rfl, -, -⟩ := h
    simp
  | cons k ks ih =>
    intro w acc m w' ev h hnd
    unfold loadAllGo at h
    split at h
    case h_1 rec w₁ ev₁ hlt =>
      rcases hgo : loadAllGo index dataHome ks w₁ (dictInsert acc k rec)
        with ⟨r, w₂, ev₂⟩
      rw [hgo] at h
      simp only [Prod.mk.injEq] at h
      obtain ⟨rfl, -, -⟩ := h
      have hkacc : k ∉ acc.map Prod.fst := by
        intro hk
        exact (List.nodup_append.mp hnd).2.2 hk (by simp)
      have hkeys := dictInsert_keys_of_not_mem acc k rec hkacc
      have hnd' : ((dictInsert acc k rec).map Prod.fst ++ ks).Nodup := by
        rw [hkeys, List.append_assoc]
        simpa [List.append_assoc] using hnd
      have := ih w₁ (dictInsert acc k rec) m w₂ ev₂ hgo hnd'
      rw [this, hkeys]
      simp
    case h_2 e w₁ ev₁ hlt => simp at h

/-! ## Concrete fixtures

A one-track index, a world whose only file is the singer-id mapping, and
the values the loader computes on them; used to instantiate the
hypothesis-bearing claim theorems below. -/

/-- Index entry of the sample track `10161_chorus`. -/
def TD0 : TrackData :=
  ⟨("iKala/Wavfile/10161_chorus.wav", "ca"),
   ("iKala/PitchLabel/10161_chorus.pv", "cp"),
   ("iKala/Lyrics/10161_chorus.lab", "cl")⟩

/-- A one-track sample index. -/
def IDX : Index := [("10161_chorus", TD0)]

/-- A sample singer-id mapping file: a header row and one entry. -/
def MAPFILE : List String := ["singer\tsong", "alice\t10161"]

/-- The local path of the mapping file for root directory `d`. -/
def P0 : String := "d/iKala/id_mapping.txt"

/-- Initial world: only the mapping file exists, the cache is empty. -/
def W0 : World := ⟨[(P0, MAPFILE)], none, []⟩

/-- The singer map parsed from `MAPFILE` for root `d`. -/
def MD0 : Metadata := [("10161", some "alice"), ("data_home", some "d")]

/-- `W0` after the metadata cache has been filled. -/
def W1 : World := ⟨[(P0, MAPFILE)], some MD0, []⟩

/-- The record `load_track` assembles for `10161_chorus` in `W0` (both
annotation files are absent there). -/
def REC0 : IKalaTrack :=
  ⟨"10161_chorus", none, none, "d/iKala/Wavfile/10161_chorus.wav",
   some "alice", "10161", "chorus"⟩

/-- A world holding two one-line pitch-label files. -/
def W2 : World := ⟨[("a", ["0"]), ("b", ["69"])], none, []⟩

/-- A world with no local files whose remote mapping file is `MAPFILE`. -/
def W5 : World := ⟨[], none, MAPFILE⟩

/-! ## Claims -/

/-- C6: for every track id that is not a key of the index, `load_track`
fails with the invalid-track-id error, leaves the world untouched and
performs no file I/O at all (the event log is empty). -/
theorem claim_C6_unknown_id_no_io (index : Index) (track_id : String)
    (dataHome : Option String) (w : World)
    (h : dictGet index track_id = none) :
    load_track index track_id dataHome w = (.error .invalidTrackId, w, []) := by
  unfold load_track
  rw [h]

/-- Witness for C6 at a concrete unknown id. -/
theorem claim_C6_unknown_id_no_io_witness :
    load_track IDX "nope" (some "d") W0 = (.error .invalidTrackId, W0, []) :=
  claim_C6_unknown_id_no_io IDX "nope" (some "d") W0 (by decide)

/-- C2: the pitch parser maps the input line `"0"` to frequency exactly
`0` with confidence `0` (the multiplicative gate, not the Hz formula,
whose value at MIDI 0 is strictly positive), and the input line `"69"` to
frequency exactly `440` (hence within `1e-6` of `440`) with confidence
`1`. -/
theorem claim_C2_pitch_parser_values :
    (_load_f0 "a" W2).1 = .ok (some (mkF0Data [0])) ∧
    (mkF0Data [0]).frequency_hz = [0] ∧
    (mkF0Data [0]).confidence = [0] ∧
    (_load_f0 "b" W2).1 = .ok (some (mkF0Data [69])) ∧
    (mkF0Data [69]).frequency_hz = [440] ∧
    (∃ x, (mkF0Data [69]).frequency_hz = [x] ∧ |x - 440| < 1e-6) ∧
    (mkF0Data [69]).confidence = [1] ∧
    gatedHz 0 = 0 ∧ 0 < midi_to_hz 0 := by
  have ha : fsRead W2 "a" = some ["0"] := by decide
  have hb : fsRead W2 "b" = some ["69"] := by decide
  have hpa : parseFloats ["0"] = some [0] := by decide
  have hpb : parseFloats ["69"] = some [69] := by decide
  have h440 : gatedHz 69 = 440 := by simp [gatedHz, midi_to_hz]
  exact ⟨by simp [_load_f0, ha, hpa], by simp [mkF0Data, gatedHz],
    by simp [mkF0Data, confOf, gatedHz], by simp [_load_f0, hb, hpb],
    by simp [mkF0Data, h440], ⟨440, by simp [mkF0Data, h440], by norm_num⟩,
    by simp [mkF0Data, confOf, h440], by simp [gatedHz], midi_to_hz_pos 0⟩

/-- C7: on every pitch-label file the parser accepts, the three sequences
have equal length and, entrywise, the confidence is `1` exactly when the
frequency is positive, the confidence is `0` or `1`, and the frequency is
non-negative. -/
theorem claim_C7_confidence_invariant (path : String) (w : World)
    (d : F0Data) (ev : List Event) (i : ℕ) (c : ℤ) (hz : ℝ)
    (hrun : _load_f0 path w = (.ok (some d), ev))
    (hc : d.confidence.get? i = some c)
    (hh : d.frequency_hz.get? i = some hz) :
    (d.times.length = d.frequency_hz.length ∧
      d.frequency_hz.length = d.confidence.length) ∧
    (c = 1 ↔ 0 < hz) ∧ (c = 0 ∨ c = 1) ∧ 0 ≤ hz := by
  unfold _load_f0 at hrun
  split at hrun
  · simp at hrun
  split at hrun
  · simp at hrun
  case h_2 lines hread ms hparse =>
    simp only [Prod.mk.injEq, Except.ok.injEq, Option.some.injEq] at hrun
    obtain ⟨hd, -⟩ := hrun
    subst hd
    simp only [mkF0Data, List.get?_map] at hc hh
    rcases hmi : ms.get? i with _ | m
    · rw [hmi] at hh
      simp at hh
    rw [hmi] at hc hh
    simp only [Option.map_some', Option.some.injEq] at hc hh
    subst hh
    subst hc
    exact ⟨⟨by rw [(mkF0Data_lengths ms).1, (mkF0Data_lengths ms).2.1],
        by rw [(mkF0Data_lengths ms).2.1, (mkF0Data_lengths ms).2.2]⟩,
      confOf_eq_one_iff (gatedHz m),
      confOf_zero_or_one (gatedHz m), gatedHz_nonneg m⟩

/-- Witness for C7 on the one-line file `["0"]`. -/
theorem claim_C7_confidence_invariant_witness :
    ((mkF0Data [0]).times.length = (mkF0Data [0]).frequency_hz.length ∧
      (mkF0Data [0]).frequency_hz.length = (mkF0Data [0]).confidence.length) ∧
    (confOf (gatedHz 0) = 1 ↔ 0 < gatedHz 0) ∧
    (confOf (gatedHz 0) = 0 ∨ confOf (gatedHz 0) = 1) ∧ 0 ≤ gatedHz 0 :=
  claim_C7_confidence_invariant "a" W2 (mkF0Data [0]) [.read "a"] 0
    (confOf (gatedHz 0)) (gatedHz 0)
    (by
      have ha : fsRead W2 "a" = some ["0"] := by decide
      have hpa : parseFloats ["0"] = some [0] := by decide
      simp [_load_f0, ha, hpa])
    rfl rfl

/-- C1: for an index key made of an underscore-free song id, `'_'`, and an
underscore-free section — the shape of every iKala track id,
`<song_id>_<section>` — a successful `load_track` returns a record whose
`song_id` and `sect` are the two split halves and whose concatenation
`song_id ++ "_" ++ sect` restores the track id. -/
theorem claim_C1_track_id_roundtrip (index : Index) (track_id : String)
    (dataHome : Option String) (w : World) (rec : IKalaTrack) (w' : World)
    (ev : List Event) (a b : List Char) (ha : '_' ∉ a) (hb : '_' ∉ b)
    (hid : track_id = String.mk (a ++ '_' :: b))
    (hrun : load_track index track_id dataHome w = (.ok rec, w', ev)) :
    rec.song_id ++ "_" ++ rec.sect = track_id ∧
    rec.song_id = String.mk a ∧ rec.sect = String.mk b := by
  obtain ⟨td, md, evm, s, sec, rest, -, -, hsplit, -, -, hsong, hsect, -, -, -⟩ :=
    load_track_ok_spec index track_id dataHome w rec w' ev hrun
  subst hid
  rw [pySplitStr_two a b ha hb] at hsplit
  simp only [List.cons.injEq] at hsplit
  obtain ⟨hs, hsec, -⟩ := hsplit
  rw [hsong, hsect, ← hs, ← hsec, String.mk_append_mk, String.mk_append_mk]
  exact ⟨by simp, rfl, rfl⟩

/-- Witness for C1 on the sample track `10161_chorus`. -/
theorem claim_C1_track_id_roundtrip_witness :
    REC0.song_id ++ "_" ++ REC0.sect = "10161_chorus" ∧
    REC0.song_id = String.mk "10161".data ∧
    REC0.sect = String.mk "chorus".data :=
  claim_C1_track_id_roundtrip IDX "10161_chorus" (some "d") W0 REC0 W1
    [.read P0] "10161".data "chorus".data (by decide) (by decide) rfl rfl

/-- C5: a successful `ensure_metadata` leaves a cache for which a second
call with the same root directory is a strict no-op (same dict, unchanged
world, empty I/O log — in particular no second download or parse), and
every successful call records the requested root under `'data_home'`, the
key the staleness test reads, in the returned dict. -/
theorem claim_C5_ensure_metadata_idempotent (dataHome : Option String)
    (w : World) (md : Metadata) (w' : World) (ev : List Event)
    (h : ensure_metadata dataHome w = (.ok md, w', ev)) :
    ensure_metadata dataHome w' = (.ok md, w', []) ∧
    w'.metadataCache = some md ∧
    dictGet md "data_home" = some dataHome := by
  obtain ⟨hdh, hc⟩ := ensure_metadata_ok dataHome w md w' ev h
  exact ⟨ensure_metadata_hit dataHome w' md hc hdh, hc, hdh⟩

/-- `W5` after `ensure_metadata` downloaded the mapping file and filled
the cache. -/
def W5R : World := ⟨[(P0, MAPFILE)], some MD0, MAPFILE⟩

/-- Witness for C5: in `W5` the mapping file is absent, so the first call
downloads and parses; the second call is a no-op. -/
theorem claim_C5_ensure_metadata_idempotent_witness :
    ensure_metadata (some "d") W5R = (.ok MD0, W5R, []) ∧
    W5R.metadataCache = some MD0 ∧
    dictGet MD0 "data_home" = some (some "d") :=
  claim_C5_ensure_metadata_idempotent (some "d") W5 MD0 W5R
    [.download ID_MAPPING_URL P0, .read P0] (by decide)

/-- C9: a pitch-label or lyrics path that does not exist on disk makes the
corresponding parser return the absent value (with no error and no file
opened), and a successful `load_track` whose two annotation paths are
absent carries absent `f0` and `lyrics` fields; `p` and `w₂` show the
parsers' behaviour on an arbitrary missing path. -/
theorem claim_C9_missing_files_absent (p : String) (w₂ : World)
    (index : Index) (track_id : String) (dataHome : Option String)
    (w : World) (rec : IKalaTrack) (w' : World) (ev : List Event)
    (td : TrackData) (hp2 : fsRead w₂ p = none)
    (htd : dictGet index track_id = some td)
    (hrun : load_track index track_id dataHome w = (.ok rec, w', ev))
    (hp : fsRead w' (getLocalPath dataHome td.pitch.1) = none)
    (hl : fsRead w' (getLocalPath dataHome td.lyrics.1) = none) :
    _load_f0 p w₂ = (.ok none, []) ∧
    _load_lyrics p w₂ = (.ok none, []) ∧
    rec.f0 = none ∧ rec.lyrics = none := by
  obtain ⟨td', md, evm, s, sec, rest, htd', -, -, -, -, -, -, hf0, hly, -⟩ :=
    load_track_ok_spec index track_id dataHome w rec w' ev hrun
  rw [htd] at htd'
  obtain rfl := Option.some.inj htd'
  have h1 : _load_f0 (getLocalPath dataHome td.pitch.1) w' = (.ok none, []) := by
    unfold _load_f0
    rw [hp]
  have h2 : _load_lyrics (getLocalPath dataHome td.lyrics.1) w' =
      (.ok none, []) := by
    unfold _load_lyrics
    rw [hl]
  rw [h1] at hf0
  rw [h2] at hly
  exact ⟨by unfold _load_f0; rw [hp2], by unfold _load_lyrics; rw [hp2],
    (Except.ok.inj hf0).symm, (Except.ok.inj hly).symm⟩

/-- Witness for C9: in `W0` both annotation files of `10161_chorus` are
absent, and its record has absent `f0` and `lyrics`. -/
theorem claim_C9_missing_files_absent_witness :
    _load_f0 "missing.pv" W0 = (.ok none, []) ∧
    _load_lyrics "missing.pv" W0 = (.ok none, []) ∧
    REC0.f0 = none ∧ REC0.lyrics = none :=
  claim_C9_missing_files_absent "missing.pv" W0 IDX "10161_chorus"
    (some "d") W0 REC0 W1 [.read P0] TD0 (by decide) (by decide) rfl
    (by decide) (by decide)

/-- A one-track index whose key starts with `data_home_`. -/
def IDX10 : Index := [("data_home_verse", TD0)]

/-- A mapping file with a header row and a row keyed `data_home`. -/
def MAP10 : List String := ["singer\tsong", "bob\tdata_home"]

/-- World for the C10 run: only the mapping file `MAP10` exists. -/
def W10 : World := ⟨[(P0, MAP10)], none, []⟩

/-- The singer map parsed from `MAP10` for root `d`: the row keyed
`data_home` (singer `bob`) has been silently overwritten by the root
directory. -/
def MD10 : Metadata := [("data_home", some "d")]

/-- `W10` after the metadata cache has been filled. -/
def W10R : World := ⟨[(P0, MAP10)], some MD10, []⟩

/-- C10 counterexample: the metadata loader does store the root directory
under the ordinary key `'data_home'`, silently overwriting the mapping-file
row keyed `data_home` (first two conjuncts) — but the claimed consequence
fails: loading the track `data_home_verse` does not return the root
directory as its singer; `split('_')` splits on every underscore, so the
song id is `data`, which has no entry, and `load_track` fails with the
unknown-singer error. -/
theorem claim_C10_counterexample :
    _load_metadata (some "d") W10 = (.ok MD10, W10, [.read P0]) ∧
    dictGet MD10 "data_home" = some (some "d") ∧
    load_track IDX10 "data_home_verse" (some "d") W10 =
      (.error .unknownSinger, W10R, [.read P0]) :=
  ⟨by decide, by decide, by rfl⟩

/-- C10 amended: the root directory is stored in the same dict under the
ordinary key `'data_home'` and overwrites any mapping-file row with that
key (first conjunct, which holds whatever the file contained); but the
singer lookup of a successful `load_track` can never retrieve that entry,
because the record's song id is an underscore-split component and so never
contains an underscore, hence never equals `data_home`. -/
theorem claim_C10_amended (dataHome : Option String) (w : World)
    (md : Metadata) (w' : World) (ev : List Event) (index : Index)
    (track_id : String) (dh₂ : Option String) (w₂ : World)
    (rec : IKalaTrack) (w₂' : World) (ev₂ : List Event)
    (hlm : _load_metadata dataHome w = (.ok md, w', ev))
    (hrun : load_track index track_id dh₂ w₂ = (.ok rec, w₂', ev₂)) :
    dictGet md "data_home" = some dataHome ∧
    '_' ∉ rec.song_id.data ∧ rec.song_id ≠ "data_home" := by
  refine ⟨_load_metadata_data_home dataHome w md w' ev hlm, ?_⟩
  obtain ⟨td, md₂, evm, s, sec, rest, -, -, hsplit, -, -, hsong, -, -, -, -⟩ :=
    load_track_ok_spec index track_id dh₂ w₂ rec w₂' ev₂ hrun
  unfold pySplitStr at hsplit
  rcases hps : pySplit '_' track_id.data with _ | ⟨l, ls⟩
  · exact absurd hps (pySplit_ne_nil '_' track_id.data)
  rw [hps] at hsplit
  simp only [List.map_cons, List.cons.injEq] at hsplit
  have hsl : s = String.mk l := hsplit.1.symm
  have hnot : '_' ∉ rec.song_id.data := by
    rw [hsong, hsl]
    exact pySplit_not_mem '_' track_id.data l (by rw [hps]; simp)
  refine ⟨hnot, fun heq => ?_⟩
  rw [heq] at hnot
  exact hnot (by decide)

/-- Witness for the amended C10. -/
theorem claim_C10_amended_witness :
    dictGet MD10 "data_home" = some (some "d") ∧
    '_' ∉ REC0.song_id.data ∧ REC0.song_id ≠ "data_home" :=
  claim_C10_amended (some "d") W10 MD10 W10 [.read P0] IDX "10161_chorus"
    (some "d") W0 REC0 W1 [.read P0] (by decide) rfl

/-- C3 counterexample: a row with one additional, empty field (as produced
by a trailing delimiter) is accepted, yet its pronunciation is absent,
not the (empty) join of the additional fields that the claim prescribes. -/
theorem claim_C3_counterexample :
    loadLyricsRows [["1000", "2000", "la", ""]] =
      .ok ⟨[1000 / 1000], [2000 / 1000], ["la"], [none]⟩ ∧
    (none : Option String) ≠ some (joinSpaces [""]) :=
  ⟨rfl, by decide⟩

/-- C3 amended: an accepted row contributes `start_ms / 1000`,
`end_ms / 1000` and the third field at its position; a three-field row has
an absent pronunciation, and the additional fields of a longer row are
joined by single spaces to form the pronunciation when that join is
nonempty, the pronunciation being absent when the join is empty; e.g. the
row `1000 2000 la l a` yields the pronunciation `l a`. -/
theorem claim_C3_amended (t0 t1 tok : String) (extra : List String)
    (rest : List (List String)) (q0 q1 : ℚ) (d : LyricsData)
    (h0 : pyFloat t0 = some q0) (h1 : pyFloat t1 = some q1)
    (hrest : loadLyricsRows rest = .ok d) :
    loadLyricsRows ((t0 :: t1 :: tok :: extra) :: rest) =
      .ok ⟨q0 / 1000 :: d.start_times, q1 / 1000 :: d.end_times,
           tok :: d.lyrics,
           (if joinSpaces extra = "" then none else some (joinSpaces extra)) ::
             d.pronounciations⟩ ∧
    loadLyricsRows [["1000", "2000", "la"]] =
      .ok ⟨[1], [2], ["la"], [none]⟩ ∧
    loadLyricsRows [["1000", "2000", "la", "l", "a"]] =
      .ok ⟨[1], [2], ["la"], [some "l a"]⟩ := by
  have hq1 : pyFloat "1000" = some 1000 := by decide
  have hq2 : pyFloat "2000" = some 2000 := by decide
  have hj : joinSpaces ["l", "a"] = "l a" := by decide
  have hj0 : joinSpaces ([] : List String) = "" := by decide
  have hne : ¬ ("l a" = "") := by decide
  refine ⟨loadLyricsRows_cons_ok t0 t1 tok extra rest q0 q1 d h0 h1 hrest,
    ?_, ?_⟩
  · rw [loadLyricsRows_cons_ok "1000" "2000" "la" [] [] 1000 2000
      ⟨[], [], [], []⟩ hq1 hq2 rfl]
    norm_num [hj0]
  · rw [loadLyricsRows_cons_ok "1000" "2000" "la" ["l", "a"] [] 1000 2000
      ⟨[], [], [], []⟩ hq1 hq2 rfl, hj]
    norm_num [hne]

/-- Witness for the amended C3 on a three-field row. -/
theorem claim_C3_amended_witness :
    loadLyricsRows [["1000", "2000", "la"]] =
      .ok ⟨(1000 : ℚ) / 1000 :: ([] : List ℚ),
           (2000 : ℚ) / 1000 :: ([] : List ℚ), "la" :: ([] : List String),
           (if joinSpaces [] = "" then none else some (joinSpaces [])) ::
             ([] : List (Option String))⟩ ∧
    loadLyricsRows [["1000", "2000", "la"]] =
      .ok ⟨[1], [2], ["la"], [none]⟩ ∧
    loadLyricsRows [["1000", "2000", "la", "l", "a"]] =
      .ok ⟨[1], [2], ["la"], [some "l a"]⟩ :=
  claim_C3_amended "1000" "2000" "la" [] [] 1000 2000 ⟨[], [], [], []⟩
    (by decide) (by decide) rfl

/-- C8 counterexample: the parser enforces no ordering between the two
times — the row `2000 1000 x` is accepted, and its start time `2` exceeds
its end time `1`. -/
theorem claim_C8_counterexample :
    loadLyricsRows [["2000", "1000", "x"]] =
      .ok ⟨[2000 / 1000], [1000 / 1000], ["x"], [none]⟩ ∧
    ¬ ((2000 : ℚ) / 1000 ≤ 1000 / 1000) :=
  ⟨rfl, by norm_num⟩

/-- C8 amended: every accepted lyrics file yields four parallel sequences
whose common length is the number of rows, and `start_time[i] ≤
end_time[i]` holds at every index whose source row has `start_ms ≤
end_ms` (the parser itself enforces no ordering). -/
theorem claim_C8_amended (rows : List (List String)) (d : LyricsData)
    (i : ℕ) (s e : ℚ) (h : loadLyricsRows rows = .ok d)
    (hs : d.start_times.get? i = some s)
    (he : d.end_times.get? i = some e) :
    (d.start_times.length = rows.length ∧ d.end_times.length = rows.length ∧
      d.lyrics.length = rows.length ∧
      d.pronounciations.length = rows.length) ∧
    ∃ t0 t1 tok extra q0 q1,
      rows.get? i = some (t0 :: t1 :: tok :: extra) ∧
      pyFloat t0 = some q0 ∧ pyFloat t1 = some q1 ∧
      s = q0 / 1000 ∧ e = q1 / 1000 ∧ (q0 ≤ q1 → s ≤ e) := by
  obtain ⟨hlen, hidx⟩ := loadLyricsRows_spec rows d h
  obtain ⟨t0, t1, tok, extra, q0, q1, hrow, h0, h1, hsv, hev, -, -⟩ :=
    hidx i s e hs he
  refine ⟨hlen, t0, t1, tok, extra, q0, q1, hrow, h0, h1, hsv, hev,
    fun hq => ?_⟩
  rw [hsv, hev]
  exact (div_le_div_iff_of_pos_right (by norm_num : (0 : ℚ) < 1000)).mpr hq

/-- Witness for the amended C8 on the single row `1000 2000 la`. -/
theorem claim_C8_amended_witness :
    (([(1000 : ℚ) / 1000] : List ℚ).length =
        ([["1000", "2000", "la"]] : List (List String)).length ∧
      ([(2000 : ℚ) / 1000] : List ℚ).length =
        ([["1000", "2000", "la"]] : List (List String)).length ∧
      (["la"] : List String).length =
        ([["1000", "2000", "la"]] : List (List String)).length ∧
      ([none] : List (Option String)).length =
        ([["1000", "2000", "la"]] : List (List String)).length) ∧
    ∃ t0 t1 tok extra q0 q1,
      ([["1000", "2000", "la"]] : List (List String)).get? 0 =
        some (t0 :: t1 :: tok :: extra) ∧
      pyFloat t0 = some q0 ∧ pyFloat t1 = some q1 ∧
      (1000 : ℚ) / 1000 = q0 / 1000 ∧ (2000 : ℚ) / 1000 = q1 / 1000 ∧
      (q0 ≤ q1 → (1000 : ℚ) / 1000 ≤ (2000 : ℚ) / 1000) :=
  claim_C8_amended [["1000", "2000", "la"]]
    ⟨[1000 / 1000], [2000 / 1000], ["la"], [none]⟩ 0
    ((1000 : ℚ) / 1000) ((2000 : ℚ) / 1000) rfl rfl rfl

/-- The content-hash collaborator used by the C4 witness. -/
def HF : List String → String := fun _ => ""

/-- The mapping `load` produces on `IDX` in `W0`. -/
def M0 : List (String × IKalaTrack) := [("10161_chorus", REC0)]

/-- C4: `load` first runs `validate` — the head of its I/O log is the
validation event carrying the report of `validate(data_home)`, computed
before any track is loaded and never aborting the run — and a successful
run then produces a mapping whose keys are exactly the index keys, in
index order, so every track id is mapped to a record. -/
theorem claim_C4_load_validates_then_loads (index : Index)
    (hash : List String → String) (dataHome : Option String) (w : World)
    (m : List (String × IKalaTrack)) (k : String)
    (hnd : (index.map Prod.fst).Nodup)
    (h : (load index hash dataHome w).1 = .ok m)
    (hk : k ∈ track_ids index) :
    (load index hash dataHome w).2.2.head? =
      some (.validated (validate index hash dataHome none w)) ∧
    m.map Prod.fst = track_ids index ∧
    ∃ rec, dictGet m k = some rec := by
  rcases hgo : loadAllGo index dataHome (track_ids index) w [] with ⟨r, w', ev⟩
  have hload : load index hash dataHome w =
      (r, w', .validated (validate index hash dataHome none w) :: ev) := by
    unfold load
    rw [hgo]
  rw [hload] at h
  obtain rfl : r = .ok m := h
  have hkeys := loadAllGo_ok_keys index dataHome (track_ids index) w [] m w'
    ev hgo (by simpa [track_ids] using hnd)
  simp only [List.map_nil, List.nil_append] at hkeys
  rw [hload]
  exact ⟨rfl, hkeys, dictGet_some_of_mem_keys m k (by rw [hkeys]; exact hk)⟩

/-- Witness for C4 on the one-track index. -/
theorem claim_C4_load_validates_then_loads_witness :
    (load IDX HF (some "d") W0).2.2.head? =
      some (.validated (validate IDX HF (some "d") none W0)) ∧
    M0.map Prod.fst = track_ids IDX ∧
    ∃ rec, dictGet M0 "10161_chorus" = some rec :=
  claim_C4_load_validates_then_loads IDX HF (some "d") W0 M0 "10161_chorus"
    (by decide) rfl (by decide)

end Ikala
